import Mathlib

set_option autoImplicit false

/-!
Verification of the OBD-II polling tool (obdstuff.py).

The pure response decoder, the port prober, the port-discovery fan-out,
the connection manager and its lock are embedded as Lean definitions
translated from the source.  Python machine strings are modelled as Lean
strings restricted to the ASCII whitespace conventions of the adapter
protocol; Python int(tok, 16) is modelled as an Option Int including
sign, 0x prefix and underscore separators; a raised ValueError is the
none case.  Threaded code is modelled by explicit state passing (probe
discovery, connection manager) and by a step relation with an
interleaving trace (the session lock).
-/

/-- ASCII whitespace recognised by the Python str.strip and str.split
used in the source (space, tab, LF, CR, VT, FF). -/
def pyIsSpace (c : Char) : Bool :=
  c == ' ' || c == '\t' || c == '\n' || c == '\r' || c == '\x0b' || c == '\x0c'

/-- Strip leading and trailing whitespace from a character list. -/
def stripList (l : List Char) : List Char :=
  ((l.dropWhile pyIsSpace).reverse.dropWhile pyIsSpace).reverse

/-- Model of Python str.strip with no arguments. -/
def pyStrip (s : String) : String :=
  String.mk (stripList s.data)

/-- Worker for pySplitWs: accumulates the current token in reverse. -/
def splitWsAux : List Char → List Char → List (List Char)
  | [], acc => if acc = [] then [] else [acc.reverse]
  | c :: rest, acc =>
    if pyIsSpace c then
      if acc = [] then splitWsAux rest []
      else acc.reverse :: splitWsAux rest []
    else splitWsAux rest (c :: acc)

/-- Model of Python str.split with no arguments: split on runs of
whitespace, discarding empty tokens. -/
def pySplitWs (s : String) : List String :=
  (splitWsAux s.data []).map String.mk

/-- Model of Python s.replace(x, y) in the special shape the source
uses, namely a one-character needle x and an empty replacement y: every
occurrence of the character anywhere in the text is deleted. -/
def removeChar (a : Char) : List Char → List Char
  | [] => []
  | c :: rest => if c = a then removeChar a rest else c :: removeChar a rest

/-- Normalisation performed by parse_obd_response before tokenising:
response.strip followed by replace CR by nothing and replace LF by
nothing. -/
def obdNormalize (s : String) : String :=
  String.mk (removeChar '\n' (removeChar '\r' (stripList s.data)))

/-- The token list parse_obd_response actually decodes:
response.strip().replace CR.replace LF, then split(). -/
def obdTokens (s : String) : List String :=
  pySplitWs (obdNormalize s)

/-- Value of one hexadecimal digit, none for any other character. -/
def hexDigitVal (c : Char) : Option Nat :=
  if ('0').toNat ≤ c.toNat ∧ c.toNat ≤ ('9').toNat then some (c.toNat - ('0').toNat)
  else if ('a').toNat ≤ c.toNat ∧ c.toNat ≤ ('f').toNat then some (c.toNat - ('a').toNat + 10)
  else if ('A').toNat ≤ c.toNat ∧ c.toNat ≤ ('F').toNat then some (c.toNat - ('A').toNat + 10)
  else none

/-- Hex digit run with Python underscore rules: a single underscore may
stand between two digits, never doubled, leading or trailing. -/
def hexDigitsAux : List Char → Nat → Option Nat
  | [], acc => some acc
  | ['_'], _ => none
  | '_' :: c :: rest, acc =>
    match hexDigitVal c with
    | none => none
    | some d => hexDigitsAux rest (acc * 16 + d)
  | c :: rest, acc =>
    match hexDigitVal c with
    | none => none
    | some d => hexDigitsAux rest (acc * 16 + d)

/-- A non-empty hex digit run (underscores allowed between digits). -/
def hexDigitsTop : List Char → Option Nat
  | [] => none
  | c :: rest =>
    match hexDigitVal c with
    | none => none
    | some d => hexDigitsAux rest d

/-- Unsigned part of Python int(s, 16): optional 0x or 0X prefix, with
at most one underscore directly after the prefix, then digits. -/
def parseHexCore (l : List Char) : Option Nat :=
  match l with
  | '0' :: x :: rest =>
    if x = 'x' ∨ x = 'X' then
      match rest with
      | '_' :: rest2 => hexDigitsTop rest2
      | _ => hexDigitsTop rest
    else hexDigitsTop l
  | _ => hexDigitsTop l

/-- Model of the source utility hex_to_decimal, that is Python
int(hex_str, 16): surrounding whitespace stripped, optional sign,
optional 0x prefix, underscore-separated hex digits; none models the
ValueError raised on any other text. -/
def hex_to_decimal (s : String) : Option Int :=
  match stripList s.data with
  | '+' :: rest => (parseHexCore rest).map (fun n => (n : Int))
  | '-' :: rest => (parseHexCore rest).map (fun n => -(n : Int))
  | l => (parseHexCore l).map (fun n => (n : Int))

/-- Result record of parse_obd_response.  The value field of the source
is a formatted text such as 1726.0 RPM; it is modelled structurally as
the decoded quantity paired with its unit text, with the quantity in ℚ
because the RPM rule uses Python true division by 4. -/
structure ParseResult where
  pid : String
  raw_response : String
  value : Option (ℚ × String)
  error : Option String
deriving DecidableEq

/-- Message of the caught ValueError path, Python
f-string Error parsing PID pid followed by the int() complaint naming
the offending token. -/
def intErrorMsg (pid tok : String) : String :=
  ("Error parsing PID ") ++ pid ++ (": invalid literal for int() with base 16: ") ++ tok

/-- Body of parse_obd_response once the token list is computed; mirrors
the if/elif chain of the source, with the caught-exception branch made
explicit at each hex_to_decimal call site. -/
def parse_with (pid response : String) (parts : List String) : ParseResult :=
  if pid = "010C" then
    if 4 ≤ parts.length ∧ parts.getD 1 "" = "0C" then
      match hex_to_decimal (parts.getD 2 "") with
      | none => ⟨pid, response, none, some (intErrorMsg pid (parts.getD 2 ""))⟩
      | some a =>
        match hex_to_decimal (parts.getD 3 "") with
        | none => ⟨pid, response, none, some (intErrorMsg pid (parts.getD 3 ""))⟩
        | some b => ⟨pid, response, some (((a : ℚ) * 256 + (b : ℚ)) / 4, "RPM"), none⟩
    else ⟨pid, response, none, some ("No valid RPM data.")⟩
  else if pid = "010D" then
    if 3 ≤ parts.length ∧ parts.getD 1 "" = "0D" then
      match hex_to_decimal (parts.getD 2 "") with
      | none => ⟨pid, response, none, some (intErrorMsg pid (parts.getD 2 ""))⟩
      | some v => ⟨pid, response, some ((v : ℚ), "km/h"), none⟩
    else ⟨pid, response, none, some ("No valid speed data.")⟩
  else if pid = "0105" then
    if 3 ≤ parts.length ∧ parts.getD 1 "" = "05" then
      match hex_to_decimal (parts.getD 2 "") with
      | none => ⟨pid, response, none, some (intErrorMsg pid (parts.getD 2 ""))⟩
      | some v => ⟨pid, response, some ((v : ℚ) - 40, "°C"), none⟩
    else ⟨pid, response, none, some ("No valid coolant temperature data.")⟩
  else ⟨pid, response, none, some (("Unsupported PID: ") ++ pid)⟩

/-- Model of parse_obd_response of the source: normalise and tokenise
the raw text, then decode according to the requested PID. -/
def parse_obd_response (pid response : String) : ParseResult :=
  parse_with pid response (obdTokens response)

/-!
Port prober and discovery.  test_port of the source runs in a worker
thread; its transport effects are modelled by a behaviour record saying
whether the open, the write and the read succeed and what text the read
yields, and the shared stop event and result dictionary are an explicit
state threaded through the probes in launch order (one interleaving of
the fan-out; the shared checks of the source appear at the same program
points).
-/

/-- Behaviour of one candidate serial endpoint during a probe: the
device name, whether serial.Serial open succeeds, whether the write of
ATZ succeeds, whether read_all succeeds, and the decoded text the read
yields.  A false flag models the corresponding call raising. -/
structure ProbeB where
  device : String
  openOk : Bool
  writeOk : Bool
  readOk : Bool
  response : String
deriving DecidableEq

/-- Shared state of one discovery round: the result slot and the stop
event. -/
structure DiscState where
  found : Option String
  stopped : Bool
deriving DecidableEq

/-- What one probe did to its own transport handle: whether it opened
one and whether it closed it before returning. -/
structure ProbeRes where
  opened : Bool
  closed : Bool
deriving DecidableEq

/-- Model of test_port of the source.  Early return when the stop event
is already set; any raising call falls into the bare except and the
function returns with no further action — in particular ser.close() is
only reached when the write and the read both succeeded. -/
def test_port (b : ProbeB) (st : DiscState) : ProbeRes × DiscState :=
  if st.stopped then (⟨false, false⟩, st)
  else if b.openOk = false then (⟨false, false⟩, st)
  else if b.writeOk = false then (⟨true, false⟩, st)
  else if b.readOk = false then (⟨true, false⟩, st)
  else
    if pyStrip b.response ≠ "" ∧ st.stopped = false then
      (⟨true, true⟩, ⟨some b.device, true⟩)
    else (⟨true, true⟩, st)

/-- Model of find_obd_port_multithreaded of the source: launch one
probe per candidate endpoint against a fresh result slot and stop
event, join them all, and return whatever the result slot holds. -/
def find_obd_port_multithreaded (ports : List ProbeB) : Option String :=
  (ports.foldl (fun st b => (test_port b st).2) ⟨none, false⟩).found

/-!
Connection manager.  send_command of the source runs under the lock;
its body is modelled as a function of the manager state, a fault flag
for the write/read pair, and the text a successful read yields.
-/

/-- The serial handle held by the manager, reduced to its open flag. -/
structure SConn where
  is_open : Bool
deriving DecidableEq

/-- Manager state relevant to send_command: the serial_connection
attribute, none when absent or discarded. -/
structure MState where
  conn : Option SConn
deriving DecidableEq

/-- Sentinel text returned when no usable connection exists. -/
def noResponseMsg : String := "No response - connection not available."

/-- Outcome of one send_command call: the returned text, the manager
state after the call, and whether the call touched the transport at
all (reached the write). -/
structure SendOut where
  ret : String
  post : MState
  attempted : Bool
deriving DecidableEq

/-- Model of OBDConnectionManager.send_command.  With a live open
connection the write/read pair runs; a fault there is caught, the
connection attribute is cleared to force reconnection, and control
falls through to the sentinel return.  Without a live connection the
sentinel is returned with no transport access. -/
def send_command (st : MState) (fault : Bool) (raw : String) : SendOut :=
  match st.conn with
  | some c =>
    if c.is_open then
      if fault then ⟨noResponseMsg, ⟨none⟩, true⟩
      else ⟨pyStrip raw, st, true⟩
    else ⟨noResponseMsg, st, false⟩
  | none => ⟨noResponseMsg, st, false⟩

/-- A sequence of send_command calls, each described by its fault flag
and read text, threading the manager state. -/
def sendSeq (st : MState) : List (Bool × String) → List SendOut
  | [] => []
  | (f, r) :: rest => send_command st f r :: sendSeq (send_command st f r).post rest

/-- Model of one iteration of OBDConnectionManager._maintain_connection:
when the connection is absent or closed, run discovery (its outcome is
the port argument) and, on a candidate, attempt to open it (openOk
false models serial.SerialException, which clears the attribute). -/
def maintain_step (st : MState) (port : Option String) (openOk : Bool) : MState :=
  if (match st.conn with | none => true | some c => !c.is_open) then
    match port with
    | some _ => if openOk then ⟨some ⟨true⟩⟩ else ⟨none⟩
    | none => st
  else st

/-!
Serialisation of concurrent send_command calls.  The lock acquired by
the with statement is modelled by a two-thread transition system: each
thread runs one send_command call, split into its atomic actions, and
the observable transport events (the write and the read) are recorded
in a trace, newest first.  Mutual exclusion of the lock is the only
thing preventing interleavings.
-/

/-- Observable transport actions of one send_command call. -/
inductive Act where
  | cmdWrite : Act
  | cmdRead : Act
deriving DecidableEq

/-- Pointwise update of a thread-indexed program counter. -/
def updPc (f : Bool → Nat) (t : Bool) (v : Nat) : Bool → Nat :=
  fun x => if x = t then v else f x

/-- State of the two-thread system: who holds the lock, each thread
program counter (0 before acquire, 1 in the critical section before the
write, 2 after the write, 3 after the read, 4 released), and the trace
of transport events, newest first. -/
structure CState where
  lock : Option Bool
  pc : Bool → Nat
  trace : List (Bool × Act)

/-- Both threads about to call send_command, lock free, empty trace. -/
def initState : CState :=
  ⟨none, fun _ => 0, []⟩

/-- Atomic steps of two concurrent send_command calls on one manager.
The avail flag is the shared connection check; when it is false the
call releases the lock without touching the transport. -/
inductive LockStep (avail : Bool) : CState → CState → Prop where
  | acquire (s : CState) (t : Bool) (h1 : s.lock = none) (h2 : s.pc t = 0) :
      LockStep avail s ⟨some t, updPc s.pc t 1, s.trace⟩
  | tWrite (s : CState) (t : Bool) (h1 : s.lock = some t) (h2 : s.pc t = 1)
      (h3 : avail = true) :
      LockStep avail s ⟨some t, updPc s.pc t 2, (t, Act.cmdWrite) :: s.trace⟩
  | tRead (s : CState) (t : Bool) (h1 : s.lock = some t) (h2 : s.pc t = 2) :
      LockStep avail s ⟨some t, updPc s.pc t 3, (t, Act.cmdRead) :: s.trace⟩
  | releaseDone (s : CState) (t : Bool) (h1 : s.lock = some t) (h2 : s.pc t = 3) :
      LockStep avail s ⟨none, updPc s.pc t 4, s.trace⟩
  | releaseNoConn (s : CState) (t : Bool) (h1 : s.lock = some t) (h2 : s.pc t = 1)
      (h3 : avail = false) :
      LockStep avail s ⟨none, updPc s.pc t 4, s.trace⟩

/-- States reachable by interleaving the two calls from the initial
state. -/
def Reach (avail : Bool) (s : CState) : Prop :=
  Relation.ReflTransGen (LockStep avail) initState s

/-- Traces made of complete write-then-read exchanges, each wholly
owned by one thread (newest event first). -/
inductive FullBlocks : List (Bool × Act) → Prop where
  | nil : FullBlocks []
  | block (t : Bool) (l : List (Bool × Act)) (h : FullBlocks l) :
      FullBlocks ((t, Act.cmdRead) :: (t, Act.cmdWrite) :: l)

/-- Serialised traces: complete exchanges, possibly below one pending
write of the thread currently holding the lock.  No event of another
thread ever separates a write from its read. -/
def Serialized (l : List (Bool × Act)) : Prop :=
  FullBlocks l ∨ ∃ t l2, l = (t, Act.cmdWrite) :: l2 ∧ FullBlocks l2

/-- Inductive invariant tying the lock holder, the program counters and
the trace shape together. -/
def LockInv (s : CState) : Prop :=
  (s.lock = none → FullBlocks s.trace ∧ ∀ t, s.pc t = 0 ∨ s.pc t = 4) ∧
  (∀ t, s.lock = some t →
    (s.pc (!t) = 0 ∨ s.pc (!t) = 4) ∧
    ((s.pc t = 1 ∧ FullBlocks s.trace) ∨
     (s.pc t = 2 ∧ ∃ l2, s.trace = (t, Act.cmdWrite) :: l2 ∧ FullBlocks l2) ∨
     (s.pc t = 3 ∧ ∃ l2, s.trace = (t, Act.cmdRead) :: (t, Act.cmdWrite) :: l2 ∧
       FullBlocks l2)))

/-! Helper lemmas. -/

theorem intErrorMsg_length_pos (pid tok : String) : 0 < (intErrorMsg pid tok).length := by
  unfold intErrorMsg
  rw [String.length_append, String.length_append, String.length_append]
  have h : 0 < ("Error parsing PID ").length := by decide
  omega

theorem unsupported_msg_length_pos (pid : String) :
    0 < (("Unsupported PID: ") ++ pid).length := by
  rw [String.length_append]
  have h : 0 < ("Unsupported PID: ").length := by decide
  omega

/-- C1: for every PID text and every raw response text,
parse_obd_response returns a result (totality is inherent in the
embedding) and afterwards exactly one of the fields value and error is
set, the error being a non-empty message exactly when no value is
set. -/
theorem parse_obd_response_total (pid response : String) :
    ((∃ v, (parse_obd_response pid response).value = some v) ∧
      (parse_obd_response pid response).error = none) ∨
    ((parse_obd_response pid response).value = none ∧
      ∃ e, (parse_obd_response pid response).error = some e ∧ 0 < e.length) := by
  unfold parse_obd_response parse_with
  repeat' split
  all_goals first
  | exact Or.inl ⟨⟨_, rfl⟩, rfl⟩
  | exact Or.inr ⟨rfl, _, rfl, by decide⟩
  | exact Or.inr ⟨rfl, _, rfl, intErrorMsg_length_pos _ _⟩
  | exact Or.inr ⟨rfl, _, rfl, unsupported_msg_length_pos _⟩

/-- C2: whenever the decoded token list of the raw response (the
normalised, whitespace-split tokens the source computes) has at least 4
entries whose token 1 is 0C and whose tokens 2 and 3 parse as hex
values a and b, parse_obd_response on PID 010C yields the value
(a times 256 plus b) over 4 with unit RPM and no error. -/
theorem parse_rpm_formula (response : String) (a b : Int)
    (hlen : 4 ≤ (obdTokens response).length)
    (h1 : (obdTokens response).getD 1 "" = "0C")
    (ha : hex_to_decimal ((obdTokens response).getD 2 "") = some a)
    (hb : hex_to_decimal ((obdTokens response).getD 3 "") = some b) :
    (parse_obd_response ("010C") response).value =
      some (((a : ℚ) * 256 + (b : ℚ)) / 4, "RPM") ∧
    (parse_obd_response ("010C") response).error = none := by
  unfold parse_obd_response parse_with
  rw [if_pos rfl, if_pos ⟨hlen, h1⟩, ha, hb]
  exact ⟨rfl, rfl⟩

/-- C2 witness: the example frame 41 0C 1A F8 decodes to 1726 RPM. -/
theorem parse_rpm_formula_app :
    (parse_obd_response ("010C") ("41 0C 1A F8")).value = some ((1726 : ℚ), "RPM") ∧
    (parse_obd_response ("010C") ("41 0C 1A F8")).error = none := by
  have h := parse_rpm_formula ("41 0C 1A F8") 26 248 (by decide) (by decide)
    (by decide) (by decide)
  have hv : (((26 : Int) : ℚ) * 256 + ((248 : Int) : ℚ)) / 4 = (1726 : ℚ) := by norm_num
  rw [hv] at h
  exact h

/-- C3: whenever the decoded token list of the raw response has at
least 3 entries whose token 1 is 05 and whose token 2 parses as hex
value v, parse_obd_response on PID 0105 yields the value v minus 40
with unit degrees Celsius and no error. -/
theorem parse_coolant_formula (response : String) (v : Int)
    (hlen : 3 ≤ (obdTokens response).length)
    (h1 : (obdTokens response).getD 1 "" = "05")
    (hv : hex_to_decimal ((obdTokens response).getD 2 "") = some v) :
    (parse_obd_response ("0105") response).value = some ((v : ℚ) - 40, "°C") ∧
    (parse_obd_response ("0105") response).error = none := by
  unfold parse_obd_response parse_with
  rw [if_neg (by decide), if_neg (by decide), if_pos rfl, if_pos ⟨hlen, h1⟩, hv]
  exact ⟨rfl, rfl⟩

/-- C3 witness: the example frame 41 05 7B decodes to 83 degrees. -/
theorem parse_coolant_formula_app :
    (parse_obd_response ("0105") ("41 05 7B")).value = some ((83 : ℚ), "°C") ∧
    (parse_obd_response ("0105") ("41 05 7B")).error = none := by
  have h := parse_coolant_formula ("41 05 7B") 123 (by decide) (by decide) (by decide)
  have hv : ((123 : Int) : ℚ) - 40 = (83 : ℚ) := by norm_num
  rw [hv] at h
  exact h

/-- C4: for any PID outside the supported set and any raw response,
parse_obd_response sets no value and reports an error that names the
PID (the message is a fixed prefix followed by the PID itself). -/
theorem parse_unsupported_pid (pid response : String)
    (h1 : pid ≠ "010C") (h2 : pid ≠ "010D") (h3 : pid ≠ "0105") :
    (parse_obd_response pid response).value = none ∧
    (parse_obd_response pid response).error = some (("Unsupported PID: ") ++ pid) ∧
    ∃ pre : String, ("Unsupported PID: ") ++ pid = pre ++ pid := by
  unfold parse_obd_response parse_with
  rw [if_neg h1, if_neg h2, if_neg h3]
  exact ⟨rfl, rfl, ⟨("Unsupported PID: "), rfl⟩⟩

/-- C4 witness: PID 01FF is rejected by name whatever the response. -/
theorem parse_unsupported_pid_app :
    (parse_obd_response ("01FF") ("41 0C 00")).value = none ∧
    (parse_obd_response ("01FF") ("41 0C 00")).error =
      some (("Unsupported PID: ") ++ ("01FF")) := by
  have h := parse_unsupported_pid ("01FF") ("41 0C 00") (by decide) (by decide) (by decide)
  exact ⟨h.1, h.2.1⟩

theorem removeChar_eq_filter (a : Char) (l : List Char) :
    removeChar a l = l.filter (fun c => !(c == a)) := by
  induction l with
  | nil => rfl
  | cons c rest ih =>
    by_cases h : c = a <;> simp [removeChar, h, ih]

/-- C9: the normalisation deletes every carriage return and line feed
anywhere in the text, not only at line ends (first conjunct, a filter
over the whole character list); consequently a frame whose byte tokens
are separated only by CR LF pairs, which splits into 4 tokens on raw
whitespace, is tokenised by the decoder into the single concatenated
token and then rejected for lack of tokens. -/
theorem crlf_removed_everywhere :
    (∀ s : String, obdNormalize s =
      String.mk ((stripList s.data).filter (fun c => !(c == '\n') && !(c == '\r')))) ∧
    pySplitWs ("41\r\n0C\r\n1A\r\nF8") = ["41", "0C", "1A", "F8"] ∧
    obdTokens ("41\r\n0C\r\n1A\r\nF8") = ["410C1AF8"] ∧
    (parse_obd_response ("010C") ("41\r\n0C\r\n1A\r\nF8")).value = none ∧
    (parse_obd_response ("010C") ("41\r\n0C\r\n1A\r\nF8")).error =
      some ("No valid RPM data.") := by
  refine ⟨?_, by decide, by decide, by decide, by decide⟩
  intro s
  unfold obdNormalize
  rw [removeChar_eq_filter, removeChar_eq_filter, List.filter_filter]

/-- C10: hex tokens are not checked to be exactly two digits: the
three-digit token 1F4 and the signed token +1A are both accepted by the
base-16 parse, and on such tokens the speed and coolant paths produce
readings outside the 0 to 255 byte range, with no error. -/
theorem hex_token_width_unchecked :
    hex_to_decimal ("1F4") = some 500 ∧
    hex_to_decimal ("+1A") = some 26 ∧
    (parse_obd_response ("010D") ("41 0D 1F4")).value = some ((500 : ℚ), "km/h") ∧
    (parse_obd_response ("010D") ("41 0D 1F4")).error = none ∧
    (parse_obd_response ("0105") ("41 05 1F4")).value = some ((460 : ℚ), "°C") ∧
    (parse_obd_response ("0105") ("41 05 1F4")).error = none ∧
    (255 : ℚ) < 500 ∧ (255 : ℚ) < 460 := by
  refine ⟨by decide, by decide, by decide, by decide, ?_, by decide, by norm_num, by norm_num⟩
  unfold parse_obd_response parse_with
  rw [if_neg (by decide), if_neg (by decide), if_pos rfl, if_pos ⟨by decide, by decide⟩]
  have h : hex_to_decimal ((obdTokens ("41 05 1F4")).getD 2 "") = some 500 := by decide
  rw [h]
  show some ((((500 : Int) : ℚ) - 40, ("°C" : String)) : ℚ × String) =
    some ((460 : ℚ), ("°C" : String))
  have h2 : ((500 : Int) : ℚ) - 40 = (460 : ℚ) := by norm_num
  rw [h2]

/-- C5 counterexample: a probe whose transport open succeeds but whose
write raises leaves the opened handle unclosed on return — the bare
except skips the close call, so the claim that every exit path closes
the handle fails at this input. -/
theorem test_port_close_cex :
    (test_port ⟨"COM3", true, false, true, "OK"⟩ ⟨none, false⟩).1.opened = true ∧
    (test_port ⟨"COM3", true, false, true, "OK"⟩ ⟨none, false⟩).1.closed = false := by
  decide

/-- C5 amended: the handle is opened exactly when the probe is not
cancelled at entry and the open succeeds, and it is closed exactly when
additionally the write and the read both succeed (whether or not the
result is discarded); on a write or read fault the opened handle is not
closed. -/
theorem test_port_close_characterization (b : ProbeB) (st : DiscState) :
    (test_port b st).1.opened = (!st.stopped && b.openOk) ∧
    (test_port b st).1.closed = (!st.stopped && b.openOk && b.writeOk && b.readOk) := by
  unfold test_port
  repeat' split
  all_goals simp_all

theorem probe_fold_found (l : List ProbeB) : ∀ st : DiscState,
    (l.foldl (fun st b => (test_port b st).2) st).found = st.found ∨
    ∃ b, b ∈ l ∧ (l.foldl (fun st b => (test_port b st).2) st).found = some b.device := by
  induction l with
  | nil => intro st; exact Or.inl rfl
  | cons b rest ih =>
    intro st
    have hstep : ((test_port b st).2).found = st.found ∨
        ((test_port b st).2).found = some b.device := by
      unfold test_port
      repeat' split
      all_goals simp
    rcases ih ((test_port b st).2) with h | ⟨b2, hb2, h⟩
    · rcases hstep with h2 | h2
      · left
        rw [List.foldl_cons, h, h2]
      · right
        exact ⟨b, List.mem_cons_self b rest, by rw [List.foldl_cons, h, h2]⟩
    · right
      exact ⟨b2, List.mem_cons_of_mem b hb2, by rw [List.foldl_cons]; exact h⟩

/-- C7: discovery over an empty candidate list returns none (and, the
model being a total function, does so without blocking); in general,
after folding over every launched probe, the returned value is either
none or the device of one of the candidates that recorded itself as the
winner. -/
theorem find_obd_port_result :
    find_obd_port_multithreaded [] = none ∧
    ∀ ports : List ProbeB,
      find_obd_port_multithreaded ports = none ∨
      ∃ b, b ∈ ports ∧ find_obd_port_multithreaded ports = some b.device := by
  refine ⟨rfl, ?_⟩
  intro ports
  unfold find_obd_port_multithreaded
  rcases probe_fold_found ports ⟨none, false⟩ with h | ⟨b, hb, h⟩
  · left; exact h
  · right; exact ⟨b, hb, h⟩

theorem sendSeq_closed (calls : List (Bool × String)) : ∀ st : MState, st.conn = none →
    ∀ o ∈ sendSeq st calls,
      o.ret = noResponseMsg ∧ o.attempted = false ∧ o.post.conn = none := by
  induction calls with
  | nil =>
    intro st _ o ho
    simp [sendSeq] at ho
  | cons c rest ih =>
    intro st h o ho
    obtain ⟨f, r⟩ := c
    have hk : send_command st f r = ⟨noResponseMsg, st, false⟩ := by
      unfold send_command
      rw [h]
    simp only [sendSeq] at ho
    rcases List.mem_cons.mp ho with rfl | htail
    · rw [hk]
      exact ⟨rfl, rfl, h⟩
    · exact ih (send_command st f r).post (by rw [hk]; exact h) o htail

/-- C6: a write or read fault during a send_command call on a live open
connection makes that call return the no-connection sentinel, clears
the connection attribute, and every later call in any sequence issued
before the supervisor rebuilds returns the same sentinel without
touching the transport; a successful supervisor iteration then installs
a fresh open connection. -/
theorem send_command_fault_latch (st : MState) (c : SConn) (raw : String)
    (calls : List (Bool × String)) (h1 : st.conn = some c) (h2 : c.is_open = true) :
    (send_command st true raw).ret = noResponseMsg ∧
    (send_command st true raw).attempted = true ∧
    (send_command st true raw).post.conn = none ∧
    (∀ o ∈ sendSeq (send_command st true raw).post calls,
      o.ret = noResponseMsg ∧ o.attempted = false ∧ o.post.conn = none) ∧
    (∀ p : String,
      (maintain_step (send_command st true raw).post (some p) true).conn = some ⟨true⟩) := by
  have hk : send_command st true raw = ⟨noResponseMsg, ⟨none⟩, true⟩ := by
    unfold send_command
    rw [h1]
    simp [h2]
  rw [hk]
  refine ⟨rfl, rfl, rfl, sendSeq_closed calls ⟨none⟩ rfl, ?_⟩
  intro p
  rfl

/-- C6 witness: a concrete faulted call followed by two further calls. -/
theorem send_command_fault_latch_app :
    (send_command ⟨some ⟨true⟩⟩ true ("0105")).ret = noResponseMsg ∧
    (send_command ⟨some ⟨true⟩⟩ true ("0105")).post.conn = none := by
  have h := send_command_fault_latch ⟨some ⟨true⟩⟩ ⟨true⟩ ("0105")
    [(false, ("010C")), (true, ("010D"))] rfl rfl
  exact ⟨h.1, h.2.2.1⟩

theorem updPc_self (f : Bool → Nat) (t : Bool) (v : Nat) : updPc f t v t = v := by
  simp [updPc]

theorem updPc_ne (f : Bool → Nat) (t : Bool) (v : Nat) (x : Bool) (h : x ≠ t) :
    updPc f t v x = f x := by
  simp [updPc, h]

theorem bool_not_ne (t : Bool) : (!t) ≠ t := by
  cases t <;> decide

theorem bool_eq_not_of_ne {x t : Bool} (h : x ≠ t) : x = !t := by
  cases x <;> cases t <;> simp_all

theorem lockInv_init : LockInv initState := by
  constructor
  · intro _
    exact ⟨FullBlocks.nil, fun t => Or.inl rfl⟩
  · intro t h
    simp [initState] at h

theorem lockInv_step {avail : Bool} {s s2 : CState} (hinv : LockInv s)
    (hstep : LockStep avail s s2) : LockInv s2 := by
  obtain ⟨hnone, hsome⟩ := hinv
  cases hstep with
  | acquire t h1 h2 =>
    obtain ⟨hfb, hpcs⟩ := hnone h1
    constructor
    · intro h
      simp at h
    · intro t2 h
      simp only [Option.some.injEq] at h
      subst h
      refine ⟨?_, Or.inl ⟨updPc_self _ _ _, hfb⟩⟩
      show updPc s.pc t 1 (!t) = 0 ∨ updPc s.pc t 1 (!t) = 4
      rw [updPc_ne _ _ _ _ (bool_not_ne t)]
      exact hpcs (!t)
  | tWrite t h1 h2 h3 =>
    obtain ⟨hother, hbody⟩ := hsome t h1
    have hfb : FullBlocks s.trace := by
      rcases hbody with ⟨_, hfb⟩ | ⟨hpc, _⟩ | ⟨hpc, _⟩
      · exact hfb
      · rw [h2] at hpc; omega
      · rw [h2] at hpc; omega
    constructor
    · intro h
      simp at h
    · intro t2 h
      simp only [Option.some.injEq] at h
      subst h
      refine ⟨?_, Or.inr (Or.inl ⟨updPc_self _ _ _, s.trace, rfl, hfb⟩)⟩
      show updPc s.pc t 2 (!t) = 0 ∨ updPc s.pc t 2 (!t) = 4
      rw [updPc_ne _ _ _ _ (bool_not_ne t)]
      exact hother
  | tRead t h1 h2 =>
    obtain ⟨hother, hbody⟩ := hsome t h1
    obtain ⟨l2, htr, hfb⟩ : ∃ l2, s.trace = (t, Act.cmdWrite) :: l2 ∧ FullBlocks l2 := by
      rcases hbody with ⟨hpc, _⟩ | ⟨_, hex⟩ | ⟨hpc, _⟩
      · rw [h2] at hpc; omega
      · exact hex
      · rw [h2] at hpc; omega
    constructor
    · intro h
      simp at h
    · intro t2 h
      simp only [Option.some.injEq] at h
      subst h
      refine ⟨?_, Or.inr (Or.inr ⟨updPc_self _ _ _, l2, by rw [htr], hfb⟩)⟩
      show updPc s.pc t 3 (!t) = 0 ∨ updPc s.pc t 3 (!t) = 4
      rw [updPc_ne _ _ _ _ (bool_not_ne t)]
      exact hother
  | releaseDone t h1 h2 =>
    obtain ⟨hother, hbody⟩ := hsome t h1
    obtain ⟨l2, htr, hfb⟩ : ∃ l2,
        s.trace = (t, Act.cmdRead) :: (t, Act.cmdWrite) :: l2 ∧ FullBlocks l2 := by
      rcases hbody with ⟨hpc, _⟩ | ⟨hpc, _⟩ | ⟨_, hex⟩
      · rw [h2] at hpc; omega
      · rw [h2] at hpc; omega
      · exact hex
    constructor
    · intro _
      refine ⟨by rw [htr]; exact FullBlocks.block t l2 hfb, ?_⟩
      intro t2
      show updPc s.pc t 4 t2 = 0 ∨ updPc s.pc t 4 t2 = 4
      by_cases h : t2 = t
      · rw [h, updPc_self]
        exact Or.inr rfl
      · rw [updPc_ne _ _ _ _ h, bool_eq_not_of_ne h]
        exact hother
    · intro t2 h
      simp at h
  | releaseNoConn t h1 h2 h3 =>
    obtain ⟨hother, hbody⟩ := hsome t h1
    have hfb : FullBlocks s.trace := by
      rcases hbody with ⟨_, hfb⟩ | ⟨hpc, _⟩ | ⟨hpc, _⟩
      · exact hfb
      · rw [h2] at hpc; omega
      · rw [h2] at hpc; omega
    constructor
    · intro _
      refine ⟨hfb, ?_⟩
      intro t2
      show updPc s.pc t 4 t2 = 0 ∨ updPc s.pc t 4 t2 = 4
      by_cases h : t2 = t
      · rw [h, updPc_self]
        exact Or.inr rfl
      · rw [updPc_ne _ _ _ _ h, bool_eq_not_of_ne h]
        exact hother
    · intro t2 h
      simp at h

theorem serialized_of_lockInv {s : CState} (h : LockInv s) : Serialized s.trace := by
  obtain ⟨hnone, hsome⟩ := h
  cases hl : s.lock with
  | none => exact Or.inl (hnone hl).1
  | some t =>
    obtain ⟨_, hbody⟩ := hsome t hl
    rcases hbody with ⟨_, hfb⟩ | ⟨_, l2, htr, hfb⟩ | ⟨_, l2, htr, hfb⟩
    · exact Or.inl hfb
    · exact Or.inr ⟨t, l2, htr, hfb⟩
    · exact Or.inl (by rw [htr]; exact FullBlocks.block t l2 hfb)

/-- C8: in every state reachable by interleaving two concurrent
send_command calls on one manager, the trace of transport events is
serialised: it consists of complete write-then-read exchanges each
wholly owned by one thread, with at most a pending write of the current
lock holder on top — no event of the other call ever falls between a
write and its read. -/
theorem send_command_serialized (avail : Bool) (s : CState) (h : Reach avail s) :
    Serialized s.trace := by
  have hinv : LockInv s := by
    induction h with
    | refl => exact lockInv_init
    | tail hab hbc ih => exact lockInv_step ih hbc
  exact serialized_of_lockInv hinv

/-- C8 witness: the state after thread false acquires the lock and
performs its write is reachable, and its trace is serialised. -/
theorem send_command_serialized_app :
    Serialized [(false, Act.cmdWrite)] := by
  have h1 : LockStep true initState ⟨some false, updPc initState.pc false 1, []⟩ :=
    LockStep.acquire initState false rfl rfl
  have h2 : LockStep true ⟨some false, updPc initState.pc false 1, []⟩
      ⟨some false, updPc (updPc initState.pc false 1) false 2, [(false, Act.cmdWrite)]⟩ :=
    LockStep.tWrite _ false rfl rfl rfl
  have hr : Reach true
      ⟨some false, updPc (updPc initState.pc false 1) false 2, [(false, Act.cmdWrite)]⟩ :=
    Relation.ReflTransGen.tail (Relation.ReflTransGen.tail Relation.ReflTransGen.refl h1) h2
  exact send_command_serialized true _ hr
